import Mathlib

/-
Shallow embedding of the attendance trajectory engine of the JFlow
repository (src/lib/trajectoryEngine.js) and proofs about it.

Modelling conventions:
* JavaScript `Date` values are modelled as integer timestamps in
  milliseconds ("local-time" milliseconds; the engine never crosses a
  DST boundary inside a computation, every slot date is pinned to local
  midnight by `setHours(0,0,0,0)`).  A JavaScript *Invalid Date* (its
  time value is NaN) is modelled by the constructor `JDate.invalid`;
  note that an Invalid Date object is still truthy in JS, which the
  code's `if (!date)` check does not catch.
* JavaScript numbers appearing in percentage computations are modelled
  as exact rationals (the concrete values exercised here are exactly
  representable, so the float/rational distinction is immaterial).
* Strings (statuses, date keys, slot ids, subject codes) are Lean
  `String`s; the JS "falsy" behaviour of the empty string is modelled
  explicitly where the source relies on it (`a || b` chains).
* A JS object field that may be `undefined` is an `Option`.
* The timetable object is modelled as a total function from weekday
  name to slot list; a missing weekday is the empty list, matching
  `timetable[dayName] || []`.  The `!timetable` null guard of the
  source is not representable (a Lean function is never null) and is
  dropped; no claim concerns a null timetable.
* `Array.prototype.sort` with comparator `(a, b) => a.date - b.date` is
  modelled as the stable insertion sort `jsSortByDate`.  For sessions
  with valid (comparable) dates this is exactly the unique stable sort
  the comparator determines; when an Invalid Date is present the JS
  comparator returns NaN (treated as 0 by the sort), the engine-level
  order is implementation defined, and the model fixes one stable
  choice.
-/

namespace JFlow

/-- Milliseconds in one day. -/
def msPerDay : Int := 86400000

/-- Source constant `DAYS = ['Sunday', ..., 'Saturday']`. -/
def DAYS : List String :=
  ["Sunday", "Monday", "Tuesday", "Wednesday", "Thursday", "Friday", "Saturday"]

/-- A JS `Date`: either a valid timestamp (ms) or an Invalid Date (NaN). -/
inductive JDate where
  | invalid
  | valid (ms : Int)
deriving DecidableEq, Repr

/-- Whether a `JDate` is a valid date. -/
def JDate.isValid : JDate → Bool
  | .invalid => false
  | .valid _ => true

/-- JS `a || b` for two possibly-undefined strings (empty string is falsy). -/
def jsOrOpt (a b : Option String) : Option String :=
  match a with
  | some s => if s = "" then b else some s
  | none => b

/-- JS `a || b` where `b` is a plain string (empty string is falsy). -/
def jsOrStr (a : Option String) (b : String) : String :=
  match a with
  | some s => if s = "" then b else s
  | none => b

/-- Value of a decimal digit character, if it is one. -/
def digitVal10 (c : Char) : Option Nat :=
  if c.isDigit then some (c.toNat - 48) else none

/-- Value of a hexadecimal digit character, if it is one. -/
def digitVal16 (c : Char) : Option Nat :=
  if c.isDigit then some (c.toNat - 48)
  else if 'a' ≤ c ∧ c ≤ 'f' then some (c.toNat - 87)
  else if 'A' ≤ c ∧ c ≤ 'F' then some (c.toNat - 55)
  else none

/-- Fold a digit list into a number in the given base. -/
def digitsToNat (base : Nat) (ds : List Nat) : Nat :=
  ds.foldl (fun acc d => acc * base + d) 0

/-- JS `parseInt(s)` (radix 10, with the `0x` hexadecimal prefix rule):
strip leading whitespace, take an optional sign, then the longest
digit run; `none` models NaN (no digits). -/
def parseIntJS (s : String) : Option Int :=
  let cs := s.data.dropWhile (fun c => c.isWhitespace)
  let signed : Int × List Char :=
    match cs with
    | '-' :: rest => (-1, rest)
    | '+' :: rest => (1, rest)
    | _ => (1, cs)
  let based : Nat × List Char :=
    match signed.2 with
    | '0' :: 'x' :: rest => (16, rest)
    | '0' :: 'X' :: rest => (16, rest)
    | l => (10, l)
  let dv := if based.1 = 16 then digitVal16 else digitVal10
  let ds := (based.2.takeWhile (fun c => (dv c).isSome)).filterMap dv
  if ds.isEmpty then none
  else some (signed.1 * (digitsToNat based.1 ds : Int))

/-- Days from the civil epoch 1970-01-01 for a Gregorian date with
month in 1..12 and arbitrary (possibly overflowing) day, following the
standard civil-calendar algorithm. -/
def daysFromCivil (y m d : Int) : Int :=
  let y := if m ≤ 2 then y - 1 else y
  let era := Int.fdiv y 400
  let yoe := y - era * 400
  let mp := Int.emod (m + 9) 12
  let doy := Int.fdiv (153 * mp + 2) 5 + d - 1
  let doe := yoe * 365 + Int.fdiv yoe 4 - Int.fdiv yoe 100 + doy
  era * 146097 + doe - 719468

/-- Inverse of `daysFromCivil`: the (year, month, day) of a day number. -/
def civilFromDays (z0 : Int) : Int × Int × Int :=
  let z := z0 + 719468
  let era := Int.fdiv z 146097
  let doe := z - era * 146097
  let yoe := Int.fdiv (doe - Int.fdiv doe 1460 + Int.fdiv doe 36524 - Int.fdiv doe 146096) 365
  let y := yoe + era * 400
  let doy := doe - (365 * yoe + Int.fdiv yoe 4 - Int.fdiv yoe 100)
  let mp := Int.fdiv (5 * doy + 2) 153
  let d := doy - Int.fdiv (153 * mp + 2) 5 + 1
  let m := mp + (if mp < 10 then 3 else -9)
  (if m ≤ 2 then y + 1 else y, m, d)

/-- The timestamp of `new Date(y, monthIndex, day)` (local midnight):
months and days outside their ranges roll over, and a year in 0..99 is
read as 1900+y, as the JS `Date` constructor does. -/
def jsMakeDateMs (y monthIndex d : Int) : Int :=
  let y := if 0 ≤ y ∧ y ≤ 99 then y + 1900 else y
  let y2 := y + Int.fdiv monthIndex 12
  let m := Int.emod monthIndex 12 + 1
  (daysFromCivil y2 m 1 + (d - 1)) * msPerDay

/-- JS `String(n).padStart(2, '0')`. -/
def pad2 (n : Int) : String :=
  let s := toString n
  if s.length < 2 then "0" ++ s else s

/-- The `YYYY-MM-DD` key of a day number, as the engine builds it from
`getFullYear`/`getMonth`/`getDate` with 2-padding. -/
def dateKeyOfDay (day : Int) : String :=
  match civilFromDays day with
  | (y, m, d) => s!"{y}-{pad2 m}-{pad2 d}"

/-- The `dateKey` the engine derives from a session's `Date`: for an
Invalid Date all components are NaN and the key is "NaN-NaN-NaN". -/
def jdateKey : JDate → String
  | .invalid => "NaN-NaN-NaN"
  | .valid ms => dateKeyOfDay (Int.fdiv ms msPerDay)

/-- Weekday name `DAYS[date.getDay()]`: day 0 (1970-01-01) was a Thursday. -/
def dayName (day : Int) : String :=
  DAYS.getD ((day + 4).emod 7).toNat ""

/-- The prefix of a character list before the first occurrence of the
two-character separator `a b` (the whole list if it never occurs);
this is JS `s.split(sep)[0]` for a two-character `sep`. -/
def takeBefore2 (a b : Char) : List Char → List Char
  | [] => []
  | [c] => [c]
  | c :: d :: rest =>
    if c = a ∧ d = b then []
    else c :: takeBefore2 a b (d :: rest)

/-- JS `s.split(sep)` for a single-character separator. -/
def splitOnChar (sep : Char) : List Char → List (List Char)
  | [] => [[]]
  | c :: rest =>
    if c = sep then [] :: splitOnChar sep rest
    else
      match splitOnChar sep rest with
      | [] => [[c]]
      | g :: gs => (c :: g) :: gs

/-- Function `parseERPDate` from the source: take the substring before the first
literal " (", split on "/", require exactly 3 parts, and build
`new Date(parts[2], parts[1] - 1, parts[0])`.  A falsy date string or a
wrong part count gives `null` (`none`); three parts any of which
`parseInt`s to NaN give an Invalid Date (which is *not* `null`). -/
def parseERPDate (dateStr : Option String) : Option JDate :=
  match dateStr with
  | none => none
  | some s =>
    if s = "" then none
    else
      let datePart := takeBefore2 ' ' '(' s.data
      let parts := splitOnChar '/' datePart
      if parts.length ≠ 3 then none
      else
        match parseIntJS (String.mk (parts.getD 0 [])),
              parseIntJS (String.mk (parts.getD 1 [])),
              parseIntJS (String.mk (parts.getD 2 [])) with
        | some d, some m, some y => some (.valid (jsMakeDateMs y (m - 1) d))
        | _, _, _ => some .invalid

/-- One raw ERP attendance record (the fields the normalizer reads). -/
structure ERPRecord where
  datetime : Option String := none
  attendancedate : Option String := none
  present : Option String := none
  studentstatus : Option String := none
  classtype : Option String := none
deriving DecidableEq, Repr

/-- One session/slot object flowing through the pipeline.  Past
sessions set `time`/`classType`; future slots set `slotId`,
`startTime` and `duration`; `none` models an absent (undefined) field. -/
structure Session where
  date : JDate
  dateKey : String
  time : Option String := none
  classType : Option String := none
  slotId : Option String := none
  startTime : Option String := none
  duration : Option Int := none
  status : String
  type : String
deriving DecidableEq, Repr

/-- The capture of `str.match(/\((.+)\)/)?.[1] || ''`: the (greedy)
text between the first '(' that is followed, at distance at least two,
by the last ')' of the string; otherwise the empty string. -/
def timeMatch (o : Option String) : String :=
  match o with
  | none => ""
  | some s =>
    let cs := s.data
    match cs.findIdx? (fun c => c = '('),
          ((cs.enum.filter (fun p => p.2 = ')')).getLast?).map (fun p => p.1) with
    | some i, some j =>
      if i + 2 ≤ j then String.mk ((cs.drop (i + 1)).take (j - i - 1)) else ""
    | _, _ => ""

/-- Convert one ERP record to a session, or `null` when the date string
is falsy or does not split into exactly three slash parts (the map step
of `normalizePastSessions`). -/
def recordToSession (record : ERPRecord) : Option Session :=
  match parseERPDate (jsOrOpt record.datetime record.attendancedate) with
  | none => none
  | some date =>
    let statusRaw := jsOrStr record.present (jsOrStr record.studentstatus "")
    let status := if statusRaw = "Present" ∨ statusRaw = "P" then "present" else "absent"
    some { date := date
           dateKey := jdateKey date
           time := some (timeMatch record.datetime)
           classType := some (record.classtype.getD "")
           status := status
           type := "past" }

/-- The boolean comparator order induced by `(a, b) => a.date - b.date`
(a NaN comparator value is treated as 0 by the sort). -/
def jsLeDate (a b : JDate) : Bool :=
  match a, b with
  | .valid x, .valid y => x ≤ y
  | _, _ => true

/-- Comparator order on sessions. -/
def sessionLe (a b : Session) : Bool := jsLeDate a.date b.date

/-- Stable insertion of a session into an already sorted list: the new
element goes before the first element it compares `≤` to. -/
def sInsert (x : Session) : List Session → List Session
  | [] => [x]
  | y :: ys => if sessionLe x y then x :: y :: ys else y :: sInsert x ys

/-- Stable sort by date (models `sort((a, b) => a.date - b.date)`). -/
def jsSortByDate (l : List Session) : List Session :=
  l.foldr sInsert []

/-- Function `normalizePastSessions` from the source: map records to sessions,
drop the nulls, sort ascending by date. -/
def normalizePastSessions (dailyData : List ERPRecord) : List Session :=
  jsSortByDate (dailyData.filterMap recordToSession)

/-- One recurring timetable slot (subject code fields may be absent). -/
structure ScheduleSlot where
  subjectCode : Option String := none
  code : Option String := none
  startTime : String
  duration : Option Int := none
deriving DecidableEq, Repr

/-- Does `t` start with `p`?  (Char-list version of JS prefix test.) -/
def listStartsWith : List Char → List Char → Bool
  | _, [] => true
  | [], _ :: _ => false
  | a :: as, b :: bs => a = b && listStartsWith as bs

/-- Does `s` contain `t` as a contiguous run?  (JS `s.includes(t)`.) -/
def listContains (s t : List Char) : Bool :=
  match s with
  | [] => t.isEmpty
  | _ :: rest => listStartsWith s t || listContains rest t

/-- JS `s.includes(t)`. -/
def jsIncludes (s t : String) : Bool := listContains s.data t.data

/-- The slot's effective code: `slot.subjectCode || slot.code || ''`. -/
def resolveSlotCode (slot : ScheduleSlot) : String :=
  jsOrStr slot.subjectCode (jsOrStr slot.code "")

/-- The subject-match test of `generateFutureSlots`:
`slotCode.includes(subjectCode) || subjectCode.includes(slotCode)`. -/
def slotMatches (slot : ScheduleSlot) (subjectCode : String) : Bool :=
  let slotCode := resolveSlotCode slot
  jsIncludes slotCode subjectCode || jsIncludes subjectCode slotCode

/-- Function `generateFutureSlots` from the source: walk every day from
`startDate` (floored to midnight) to `endDate` (pushed to 23:59:59.999,
so the loop covers whole days up to `endDate`'s calendar day), emit one
slot per matching timetable entry of that weekday. -/
def generateFutureSlots (timetable : String → List ScheduleSlot) (subjectCode : String)
    (startMs endMs : Int) : List Session :=
  if subjectCode = "" then []
  else
    let startDay := Int.fdiv startMs msPerDay
    let endDay := Int.fdiv endMs msPerDay
    let n := (endDay - startDay + 1).toNat
    (List.range n).flatMap (fun i =>
      let day := startDay + i
      let daySchedule := timetable (dayName day)
      (daySchedule.filter (fun slot => slotMatches slot subjectCode)).map (fun slot =>
        let dk := dateKeyOfDay day
        { date := JDate.valid (day * msPerDay)
          dateKey := dk
          slotId := some (dk ++ "_" ++ slot.startTime)
          startTime := some slot.startTime
          duration := slot.duration
          status := "present"
          type := "projected" }))

/-- A user override `{ slotId, status }`. -/
structure Override where
  slotId : String
  status : String
deriving DecidableEq, Repr

/-- Lookup `new Map(overrides.map(o => [o.slotId, o.status])).get(key)`:
for duplicate slot ids the later entry wins. -/
def mapGet (overrides : List Override) (key : Option String) : Option String :=
  match key with
  | none => none
  | some k => (overrides.reverse.find? (fun o => o.slotId == k)).map (fun o => o.status)

/-- Function `applyOverrides` from the source: a "cancelled" override removes
the slot; any other override value overwrites the status (`override ||
slot.status`, so an empty-string override keeps the default). -/
def applyOverrides (futureSlots : List Session) (overrides : List Override) : List Session :=
  if overrides.isEmpty then futureSlots
  else
    futureSlots.filterMap (fun slot =>
      match mapGet overrides slot.slotId with
      | some ov =>
        if ov = "cancelled" then none
        else some { slot with status := if ov = "" then slot.status else ov }
      | none => some slot)

/-- An event block: a date range during which slots are suppressed. -/
structure EventBlock where
  startDate : Int
  endDate : Int
deriving DecidableEq, Repr

/-- Is the slot's date inside `[startDate 00:00, endDate 23:59:59.999]`?
For an Invalid Date both comparisons are NaN-false, so it never lies in
a range. -/
def inEventRange (e : EventBlock) : JDate → Bool
  | .invalid => false
  | .valid t =>
    let start := Int.fdiv e.startDate msPerDay * msPerDay
    let stop := Int.fdiv e.endDate msPerDay * msPerDay + (msPerDay - 1)
    start ≤ t && t ≤ stop

/-- Function `applyEvents` from the source: remove every slot whose date falls
inside any event block. -/
def applyEvents (slots : List Session) (events : List EventBlock) : List Session :=
  if events.isEmpty then slots
  else slots.filter (fun slot => events.all (fun e => !(inEventRange e slot.date)))

/-- Function `mergeSessions`: concatenate and sort by date. -/
def mergeSessions (pastSessions futureSessions : List Session) : List Session :=
  jsSortByDate (pastSessions ++ futureSessions)

/-- The counter update of the trajectory loop: `present++` on
"present", `absent++` on "absent", anything else counted nowhere. -/
def countStatus (pa : Nat × Nat) (st : String) : Nat × Nat :=
  if st = "present" then (pa.1 + 1, pa.2)
  else if st = "absent" then (pa.1, pa.2 + 1)
  else pa

/-- JS `Math.round` (half away from zero is irrelevant here: all rounded
values are nonnegative, and JS rounds half toward +infinity). -/
def jsRound (x : ℚ) : Int := ⌊x + 1/2⌋

/-- The `y` value pushed by the loop:
`Math.round(((present / total) * 100) * 10) / 10` guarded by `total > 0`. -/
def trajPointY (present absent : Nat) : ℚ :=
  let total := present + absent
  let attendance : ℚ := if total > 0 then ((present : ℚ) / (total : ℚ)) * 100 else 0
  (jsRound (attendance * 10) : ℚ) / 10

/-- One trajectory chart point. -/
structure TrajPoint where
  x : Nat
  y : ℚ
  type : String
  date : JDate
  dateKey : String
  status : String
deriving DecidableEq, Repr

/-- The loop body of `computeTrajectory`, carrying the index and the
`(present, absent)` counters. -/
def computeTrajectoryAux : List Session → Nat → Nat × Nat → List TrajPoint
  | [], _, _ => []
  | s :: rest, i, pa =>
    let pa' := countStatus pa s.status
    { x := i
      y := trajPointY pa'.1 pa'.2
      type := s.type
      date := s.date
      dateKey := s.dateKey
      status := s.status } :: computeTrajectoryAux rest (i + 1) pa'

/-- Function `computeTrajectory` from the source. -/
def computeTrajectory (sessions : List Session) : List TrajPoint :=
  computeTrajectoryAux sessions 0 (0, 0)

/-- The counters of the trajectory loop after consuming a session list
(same update function `countStatus` as `computeTrajectoryAux`). -/
def countersAfter (l : List Session) : Nat × Nat :=
  l.foldl (fun pa s => countStatus pa s.status) (0, 0)

/-- A present/absent/total/percentage summary block. -/
structure StatBlock where
  present : Nat
  absent : Nat
  total : Nat
  percentage : ℚ
deriving DecidableEq, Repr

/-- The stats object `{ current, projected, delta }`. -/
structure Stats where
  current : StatBlock
  projected : StatBlock
  delta : ℚ
deriving DecidableEq, Repr

/-- The value `buildTrajectory` returns.  In the source `stats` is
always an object; it is typed `Option Stats` here only so that the
spec's claim "stats = null" is expressible. -/
structure TrajectoryResult where
  trajectory : List TrajPoint
  todayIndex : Nat
  stats : Option Stats
deriving DecidableEq, Repr

/-- Function `computeCurrentStats` from the source. -/
def computeCurrentStats (pastSessions : List Session) : StatBlock :=
  let present := (pastSessions.filter (fun s => s.status == "present")).length
  let absent := (pastSessions.filter (fun s => s.status == "absent")).length
  let total := present + absent
  { present := present
    absent := absent
    total := total
    percentage :=
      if total > 0 then (jsRound ((present : ℚ) / (total : ℚ) * 1000) : ℚ) / 10 else 0 }

/-- Function `computeProjectedStats` from the source: zeros on an empty
trajectory, else whole-trajectory counts with the last point's `y`. -/
def computeProjectedStats (trajectory : List TrajPoint) : StatBlock :=
  match trajectory.getLast? with
  | none => { present := 0, absent := 0, total := 0, percentage := 0 }
  | some last =>
    let present := (trajectory.filter (fun t => t.status == "present")).length
    let absent := (trajectory.filter (fun t => t.status == "absent")).length
    { present := present
      absent := absent
      total := present + absent
      percentage := last.y }

/-- Steps 2-4 of `buildTrajectory`: generate the future slots over
`[today, today + weeksAhead*7 days]`, apply events, apply overrides.
`todayMs` stands for the wall-clock `new Date()`. -/
def buildFutureSlots (timetable : String → List ScheduleSlot) (subjectCode : String)
    (overrides : List Override) (events : List EventBlock)
    (weeksAhead : Int) (todayMs : Int) : List Session :=
  let startMs := Int.fdiv todayMs msPerDay * msPerDay
  let endMs := todayMs + weeksAhead * 7 * msPerDay
  applyOverrides (applyEvents (generateFutureSlots timetable subjectCode startMs endMs) events) overrides

/-- Steps 1-5 of `buildTrajectory`: the merged, date-sorted session
sequence the calculator consumes. -/
def buildMergedSessions (dailyData : List ERPRecord) (timetable : String → List ScheduleSlot)
    (subjectCode : String) (overrides : List Override) (events : List EventBlock)
    (weeksAhead : Int) (todayMs : Int) : List Session :=
  mergeSessions (normalizePastSessions dailyData)
    (buildFutureSlots timetable subjectCode overrides events weeksAhead todayMs)

/-- Function `buildTrajectory` from the source (composed entry point). -/
def buildTrajectory (dailyData : List ERPRecord) (timetable : String → List ScheduleSlot)
    (subjectCode : String) (overrides : List Override) (events : List EventBlock)
    (weeksAhead : Int) (todayMs : Int) : TrajectoryResult :=
  let pastSessions := normalizePastSessions dailyData
  let trajectory := computeTrajectory
    (buildMergedSessions dailyData timetable subjectCode overrides events weeksAhead todayMs)
  let currentStats := computeCurrentStats pastSessions
  let projectedStats := computeProjectedStats trajectory
  let todayIndex :=
    match trajectory.findIdx? (fun t => t.type == "projected") with
    | some i => i
    | none => trajectory.length
  { trajectory := trajectory
    todayIndex := todayIndex
    stats := some
      { current := currentStats
        projected := projectedStats
        delta := projectedStats.percentage - currentStats.percentage } }

/-! ## Shared lemmas about the embedding -/

theorem perm_sInsert (x : Session) (l : List Session) : (sInsert x l).Perm (x :: l) := by
  induction l with
  | nil => exact .refl _
  | cons y ys ih =>
    simp only [sInsert]
    split
    · exact .refl _
    · exact (ih.cons y).trans (List.Perm.swap x y ys)

theorem perm_jsSortByDate (l : List Session) : (jsSortByDate l).Perm l := by
  induction l with
  | nil => exact .refl _
  | cons a l ih => exact (perm_sInsert a (jsSortByDate l)).trans (ih.cons a)

theorem mem_sInsert {y : Session} {x : Session} {l : List Session} :
    y ∈ sInsert x l ↔ y = x ∨ y ∈ l := by
  rw [(perm_sInsert x l).mem_iff, List.mem_cons]

theorem computeTrajectoryAux_map_date (l : List Session) (i : Nat) (pa : Nat × Nat) :
    (computeTrajectoryAux l i pa).map TrajPoint.date = l.map Session.date := by
  induction l generalizing i pa with
  | nil => rfl
  | cons s rest ih => simp [computeTrajectoryAux, ih]

theorem computeTrajectory_length (l : List Session) :
    (computeTrajectory l).length = l.length := by
  have h := computeTrajectoryAux_map_date l 0 (0, 0)
  have := congrArg List.length h
  simpa [computeTrajectory] using this

theorem generateFutureSlots_empty_timetable (code : String) (startMs endMs : Int) :
    generateFutureSlots (fun _ => []) code startMs endMs = [] := by
  unfold generateFutureSlots
  split
  · rfl
  · simp

theorem mapGet_nil (key : Option String) : mapGet [] key = none := by
  cases key <;> rfl

/-! ## Claim C1 -/

/-- Claim C1, counterexample: on a call whose merged session sequence
is empty, `buildTrajectory` does return `trajectory = []` and
`todayIndex = 0`, but `stats` is a zero-valued stats object, not null:
the source builds `{ current, projected, delta }` unconditionally. -/
theorem buildTrajectory_empty_returns_stats_object :
    (buildTrajectory [] (fun _ => []) "CS1" [] [] 0 0).trajectory = [] ∧
    (buildTrajectory [] (fun _ => []) "CS1" [] [] 0 0).todayIndex = 0 ∧
    (buildTrajectory [] (fun _ => []) "CS1" [] [] 0 0).stats ≠ none := by
  refine ⟨by decide, by decide, ?_⟩
  intro h
  simp [buildTrajectory] at h

/-- Claim C1, amended: whenever the merged session sequence is empty,
`buildTrajectory` returns `trajectory = []`, `todayIndex = 0`, and
`stats` equal to the zero stats object (current and projected all zero,
delta 0) — not null. -/
theorem buildTrajectory_empty_merged (dailyData : List ERPRecord)
    (timetable : String → List ScheduleSlot) (subjectCode : String)
    (overrides : List Override) (events : List EventBlock) (weeksAhead todayMs : Int)
    (h : buildMergedSessions dailyData timetable subjectCode overrides events weeksAhead todayMs = []) :
    buildTrajectory dailyData timetable subjectCode overrides events weeksAhead todayMs
      = { trajectory := []
          todayIndex := 0
          stats := some
            { current := { present := 0, absent := 0, total := 0, percentage := 0 }
              projected := { present := 0, absent := 0, total := 0, percentage := 0 }
              delta := 0 } } := by
  have hpast : normalizePastSessions dailyData = [] := by
    have hperm := perm_jsSortByDate
      (normalizePastSessions dailyData ++
        buildFutureSlots timetable subjectCode overrides events weeksAhead todayMs)
    rw [buildMergedSessions, mergeSessions] at h
    rw [h] at hperm
    have := hperm.symm.length_eq
    simp only [List.length_nil, List.length_append] at this
    have : normalizePastSessions dailyData = [] := by
      cases hn : normalizePastSessions dailyData with
      | nil => rfl
      | cons a l => rw [hn] at this; simp at this
    exact this
  unfold buildTrajectory
  rw [h, hpast]
  norm_num [computeTrajectory, computeTrajectoryAux, computeCurrentStats,
    computeProjectedStats, List.findIdx?]

/-- Witness for `buildTrajectory_empty_merged` at a concrete input. -/
theorem buildTrajectory_empty_merged_witness :
    buildTrajectory [] (fun _ => []) "CS1" [] [] 0 0
      = { trajectory := []
          todayIndex := 0
          stats := some
            { current := { present := 0, absent := 0, total := 0, percentage := 0 }
              projected := { present := 0, absent := 0, total := 0, percentage := 0 }
              delta := 0 } } :=
  buildTrajectory_empty_merged [] (fun _ => []) "CS1" [] [] 0 0 (by decide)

/-! ## Claim C2 -/

/-- The spec's validity rule for a record's date string, written from
the spec's words: the substring before the first " (" must split on "/"
into exactly 3 parts that are all numeric. -/
def specDateParsesNumeric (s : String) : Bool :=
  let parts := splitOnChar '/' (takeBefore2 ' ' '(' s.data)
  parts.length == 3 && parts.all (fun p => !p.isEmpty && p.all Char.isDigit)

/-- The condition the code actually enforces on a record before keeping
it: a truthy date string whose prefix before " (" splits on "/" into
exactly 3 parts — numeric or not. -/
def recordDateSplits3 (record : ERPRecord) : Bool :=
  match jsOrOpt record.datetime record.attendancedate with
  | none => false
  | some s => !(s == "") && (splitOnChar '/' (takeBefore2 ' ' '(' s.data)).length == 3

/-- Claim C2, counterexample: the record dated "a/b/c" fails the spec's
"3 numeric parts" rule, yet the normalizer keeps it (the three parts
merely need to exist; `parseInt` NaN gives an Invalid Date, which is
truthy and passes the `!date` check). -/
theorem normalizePastSessions_keeps_nonnumeric :
    specDateParsesNumeric "a/b/c" = false ∧
    (normalizePastSessions
      [{ datetime := some "a/b/c", present := some "Present" }]).length = 1 := by
  decide

/-- Claim C2, amended: the normalizer output consists exactly of the
records whose (first truthy) date string splits, before the first " (",
on "/" into exactly 3 parts — with no numeric requirement; every other
record is silently excluded. -/
theorem normalizePastSessions_keeps_exactly_3parts (l : List ERPRecord) (r : ERPRecord) :
    (normalizePastSessions l).Perm (l.filterMap recordToSession) ∧
    (recordToSession r).isSome = recordDateSplits3 r := by
  refine ⟨perm_jsSortByDate _, ?_⟩
  unfold recordToSession recordDateSplits3 parseERPDate
  cases jsOrOpt r.datetime r.attendancedate with
  | none => rfl
  | some s =>
    by_cases hs : s = ""
    · simp [hs]
    · simp only [hs, if_neg hs]
      by_cases hp : (splitOnChar '/' (takeBefore2 ' ' '(' s.data)).length = 3
      · simp only [hp, if_neg (by omega : ¬(3 ≠ 3))]
        cases parseIntJS (String.mk ((splitOnChar '/' (takeBefore2 ' ' '(' s.data)).getD 0 [])) <;>
          cases parseIntJS (String.mk ((splitOnChar '/' (takeBefore2 ' ' '(' s.data)).getD 1 [])) <;>
          cases parseIntJS (String.mk ((splitOnChar '/' (takeBefore2 ' ' '(' s.data)).getD 2 [])) <;>
          simp [hp, hs]
      · simp [hp, hs]

/-! ## Claim C3 -/

/-- Claim C3, counterexample: a pair of dates with `endDate < startDate`
(same calendar day, inverted times) for which the generator still emits
one slot: both ends are floored/ceiled to whole days, so a same-day
inverted range still covers that entire day. -/
theorem generateFutureSlots_inverted_same_day_nonempty :
    ((4 * msPerDay + 500 : Int) < 4 * msPerDay + 1000) ∧
    (generateFutureSlots
      (fun d => if d = "Monday" then
        [{ subjectCode := some "CS1", startTime := "09:00", duration := some 50 }] else [])
      "CS1" (4 * msPerDay + 1000) (4 * msPerDay + 500)).length = 1 := by
  decide

/-- Claim C3, amended: whenever `endDate` falls on a strictly earlier
calendar day than `startDate`, the future slot generator returns the
empty list (a same-day inverted range, by contrast, still yields that
day's slots). -/
theorem generateFutureSlots_inverted_day_range_empty
    (timetable : String → List ScheduleSlot) (subjectCode : String) (startMs endMs : Int)
    (h : Int.fdiv endMs msPerDay < Int.fdiv startMs msPerDay) :
    generateFutureSlots timetable subjectCode startMs endMs = [] := by
  unfold generateFutureSlots
  split
  · rfl
  · have h0 : (Int.fdiv endMs msPerDay - Int.fdiv startMs msPerDay + 1).toNat = 0 := by
      omega
    simp [h0]

/-- Witness for `generateFutureSlots_inverted_day_range_empty`. -/
theorem generateFutureSlots_inverted_day_range_empty_witness :
    generateFutureSlots (fun _ => [{ startTime := "09:00" }]) "CS1"
      (5 * msPerDay) (3 * msPerDay) = [] :=
  generateFutureSlots_inverted_day_range_empty _ _ _ _ (by decide)

/-! ## Claim C4 -/

theorem applyOverrides_date_mem (s' : Session) (l : List Session) (o : List Override)
    (h : s' ∈ applyOverrides l o) : ∃ s ∈ l, s'.date = s.date := by
  unfold applyOverrides at h
  split at h
  · exact ⟨s', h, rfl⟩
  · obtain ⟨a, ha, hfa⟩ := List.mem_filterMap.mp h
    refine ⟨a, ha, ?_⟩
    rcases hov : mapGet o a.slotId with _ | ov
    · rw [hov] at hfa
      simp only [Option.some.injEq] at hfa
      rw [← hfa]
    · rw [hov] at hfa
      by_cases hc : ov = "cancelled"
      · simp [hc] at hfa
      · simp only [hc, if_false, Option.some.injEq] at hfa
        rw [← hfa]

/-- Claim C4, confirmed: with exclusion applied before overrides (as
`buildTrajectory` composes them), no slot whose date falls inside the
inclusive day range of any event block ever appears in the resolver
output, regardless of the override map — an override (even "present")
can never restore an excluded slot. -/
theorem resolver_never_outputs_excluded_slots
    (slots : List Session) (events : List EventBlock) (overrides : List Override) :
    (applyOverrides (applyEvents slots events) overrides).all
      (fun s => events.all (fun e => !(inEventRange e s.date))) = true := by
  rw [List.all_eq_true]
  intro s hs
  obtain ⟨t, ht, hdate⟩ := applyOverrides_date_mem s _ _ hs
  unfold applyEvents at ht
  split at ht
  · rename_i hev
    have : events = [] := List.isEmpty_iff.mp hev
    subst this
    simp
  · have := (List.mem_filter.mp ht).2
    simpa [hdate] using this

/-! ## Claim C5 -/

theorem applyOverrides_filterMap_length (o : List Override) (slots : List Session) :
    (slots.filterMap (fun slot =>
      match mapGet o slot.slotId with
      | some ov =>
        if ov = "cancelled" then none
        else some { slot with status := if ov = "" then slot.status else ov }
      | none => some slot)).length
    = slots.length - (slots.filter (fun s => mapGet o s.slotId == some "cancelled")).length := by
  induction slots with
  | nil => rfl
  | cons s rest ih =>
    have hle := List.length_filter_le (fun s => mapGet o s.slotId == some "cancelled") rest
    rcases hov : mapGet o s.slotId with _ | ov
    · simp only [List.filterMap_cons, List.filter_cons, hov]
      have hbeq : ((none : Option String) == some "cancelled") = false := rfl
      simp only [hbeq, Bool.false_eq_true, if_false, List.length_cons]
      rw [ih]
      omega
    · by_cases hc : ov = "cancelled"
      · subst hc
        simp only [List.filterMap_cons, List.filter_cons, hov, if_pos rfl]
        simp only [beq_self_eq_true, if_pos, List.length_cons]
        rw [ih]
        omega
      · simp only [List.filterMap_cons, List.filter_cons, hov, if_neg hc]
        have hbeq : (some ov == some "cancelled") = false := by
          simp [hc]
        simp only [hbeq, Bool.false_eq_true, if_false, List.length_cons]
        rw [ih]
        omega

/-- Claim C5, confirmed: a slot whose slotId maps to the override value
"cancelled" is removed entirely, the output length is the input length
minus the number of cancelled matching slots (and so is the trajectory
length computed from it), and no surviving slot carries a "cancelled"
override — removed slots therefore feed neither counter of any
attendance percentage. -/
theorem applyOverrides_cancellation_removes
    (slots : List Session) (overrides : List Override) :
    (applyOverrides slots overrides).length
      = slots.length - (slots.filter (fun s => mapGet overrides s.slotId == some "cancelled")).length
    ∧ (computeTrajectory (applyOverrides slots overrides)).length
      = (computeTrajectory slots).length
        - (slots.filter (fun s => mapGet overrides s.slotId == some "cancelled")).length
    ∧ (applyOverrides slots overrides).all
        (fun s => !(mapGet overrides s.slotId == some "cancelled")) = true := by
  refine ⟨?_, ?_, ?_⟩
  · unfold applyOverrides
    split
    · rename_i hov
      have : overrides = [] := List.isEmpty_iff.mp hov
      subst this
      simp [mapGet_nil]
    · exact applyOverrides_filterMap_length overrides slots
  · rw [computeTrajectory_length, computeTrajectory_length]
    unfold applyOverrides
    split
    · rename_i hov
      have : overrides = [] := List.isEmpty_iff.mp hov
      subst this
      simp [mapGet_nil]
    · exact applyOverrides_filterMap_length overrides slots
  · rw [List.all_eq_true]
    intro s hs
    unfold applyOverrides at hs
    split at hs
    · rename_i hov
      have : overrides = [] := List.isEmpty_iff.mp hov
      subst this
      simp [mapGet_nil]
    · obtain ⟨a, ha, hfa⟩ := List.mem_filterMap.mp hs
      rcases hov : mapGet overrides a.slotId with _ | ov
      · rw [hov] at hfa
        simp only [Option.some.injEq] at hfa
        subst hfa
        simp [hov]
      · rw [hov] at hfa
        by_cases hc : ov = "cancelled"
        · simp [hc] at hfa
        · simp only [hc, if_false, Option.some.injEq] at hfa
          subst hfa
          simp [hov, hc]

/-- The two-record scenario's normalized past sessions. -/
def twoRecordPast : List Session :=
  [{ date := .valid (20089 * msPerDay), dateKey := "2025-01-01", time := some "x",
     classType := some "", status := "present", type := "past" },
   { date := .valid (20090 * msPerDay), dateKey := "2025-01-02", time := some "x",
     classType := some "", status := "absent", type := "past" }]

/-- Claim C6, confirmed: two records, 01/01/2025 Present and
02/01/2025 Absent, with an empty timetable, no overrides or events and
a 0-week horizon, give a 2-entry trajectory with running percentages
100 then 50, todayIndex 2, current and projected percentage 50, and
delta 0 — for any wall-clock "today". -/
theorem buildTrajectory_two_record_scenario (todayMs : Int) :
    buildTrajectory
      [{ datetime := some "01/01/2025 (x)", present := some "Present" },
       { datetime := some "02/01/2025 (x)", present := some "Absent" }]
      (fun _ => []) "CS1" [] [] 0 todayMs
    = { trajectory :=
          [{ x := 0, y := 100, type := "past", date := .valid (20089 * msPerDay),
             dateKey := "2025-01-01", status := "present" },
           { x := 1, y := 50, type := "past", date := .valid (20090 * msPerDay),
             dateKey := "2025-01-02", status := "absent" }]
        todayIndex := 2
        stats := some
          { current := { present := 1, absent := 1, total := 2, percentage := 50 }
            projected := { present := 1, absent := 1, total := 2, percentage := 50 }
            delta := 0 } } := by
  have hfut : buildFutureSlots (fun _ => []) "CS1" [] [] 0 todayMs = [] := by
    simp only [buildFutureSlots]
    rw [generateFutureSlots_empty_timetable]
    rfl
  have hpast : normalizePastSessions
      [{ datetime := some "01/01/2025 (x)", present := some "Present" },
       { datetime := some "02/01/2025 (x)", present := some "Absent" }]
      = twoRecordPast := by decide
  have hmerged : buildMergedSessions
      [{ datetime := some "01/01/2025 (x)", present := some "Present" },
       { datetime := some "02/01/2025 (x)", present := some "Absent" }]
      (fun _ => []) "CS1" [] [] 0 todayMs
      = twoRecordPast := by
    unfold buildMergedSessions
    rw [hfut, hpast]
    decide
  have h100 : trajPointY 1 0 = 100 := by norm_num [trajPointY, jsRound]
  have h50 : trajPointY 1 1 = 50 := by norm_num [trajPointY, jsRound]
  have htraj : computeTrajectory twoRecordPast
      = [{ x := 0, y := trajPointY 1 0, type := "past", date := .valid (20089 * msPerDay),
           dateKey := "2025-01-01", status := "present" },
         { x := 1, y := trajPointY 1 1, type := "past", date := .valid (20090 * msPerDay),
           dateKey := "2025-01-02", status := "absent" }] := by rfl
  have hcur : computeCurrentStats twoRecordPast
      = { present := 1, absent := 1, total := 2, percentage := 50 } := by
    have hq : (jsRound (((1 : Nat) : ℚ) / ((2 : Nat) : ℚ) * 1000) : ℚ) / 10 = 50 := by
      norm_num [jsRound]
    rw [show computeCurrentStats twoRecordPast
        = { present := 1, absent := 1, total := 2,
            percentage := (jsRound (((1 : Nat) : ℚ) / ((2 : Nat) : ℚ) * 1000) : ℚ) / 10 }
      from rfl, hq]
  simp only [buildTrajectory]
  rw [hmerged, hpast, htraj, h100, h50, hcur]
  have hproj : computeProjectedStats
      [{ x := 0, y := 100, type := "past", date := .valid (20089 * msPerDay),
         dateKey := "2025-01-01", status := "present" },
       { x := 1, y := 50, type := "past", date := .valid (20090 * msPerDay),
         dateKey := "2025-01-02", status := "absent" }]
      = { present := 1, absent := 1, total := 2, percentage := 50 } := by rfl
  rw [hproj]
  norm_num
  decide

/-! ## Claim C7 -/

/-- Claim C7, confirmed: when every session status is "present" or
"absent" (as in all pipeline-produced lists), the loop counters after
position `i` satisfy `presentCount + absentCount = i + 1`: each session
is counted exactly once, in exactly one counter. -/
theorem countersAfter_counts_each_once (sessions : List Session)
    (h : ∀ s ∈ sessions, s.status = "present" ∨ s.status = "absent")
    (i : Nat) (hi : i < sessions.length) :
    (countersAfter (sessions.take (i + 1))).1 + (countersAfter (sessions.take (i + 1))).2
      = i + 1 := by
  have key : ∀ (l : List Session) (pa : Nat × Nat),
      (∀ s ∈ l, s.status = "present" ∨ s.status = "absent") →
      (l.foldl (fun pa s => countStatus pa s.status) pa).1
        + (l.foldl (fun pa s => countStatus pa s.status) pa).2 = pa.1 + pa.2 + l.length := by
    intro l
    induction l with
    | nil => intro pa _; simp
    | cons s rest ih =>
      intro pa hall
      have ihh := ih (countStatus pa s.status) (fun t ht => hall t (List.mem_cons_of_mem s ht))
      simp only [List.foldl_cons]
      rw [ihh]
      rcases hall s (List.mem_cons_self s rest) with hp | ha
      · have hc : countStatus pa s.status = (pa.1 + 1, pa.2) := by
          simp [countStatus, hp]
        rw [hc]
        simp only [List.length_cons]
        omega
      · have hc : countStatus pa s.status = (pa.1, pa.2 + 1) := by
          simp [countStatus, ha]
        rw [hc]
        simp only [List.length_cons]
        omega
  have hsub : ∀ s ∈ sessions.take (i + 1), s.status = "present" ∨ s.status = "absent" :=
    fun s hs => h s (List.take_subset (i + 1) sessions hs)
  have hkey := key (sessions.take (i + 1)) (0, 0) hsub
  have hlen : (sessions.take (i + 1)).length = i + 1 := by
    rw [List.length_take]
    omega
  rw [countersAfter, hkey, hlen]
  simp

/-- A one-element session list used to instantiate theorems. -/
def onePresentPast : List Session :=
  [{ date := .valid 0, dateKey := "1970-01-01", status := "present", type := "past" }]

/-- Witness for `countersAfter_counts_each_once`. -/
theorem countersAfter_counts_each_once_witness :
    (countersAfter (onePresentPast.take (0 + 1))).1
      + (countersAfter (onePresentPast.take (0 + 1))).2 = 0 + 1 :=
  countersAfter_counts_each_once _ (by decide) 0 (by decide)

/-! ## Claim C8 -/

/-- Real date order: both dates valid and timestamps ordered. -/
def validDateLe : JDate → JDate → Prop
  | .valid x, .valid y => x ≤ y
  | _, _ => False

theorem jsLeDate_valid {a b : JDate} (ha : a.isValid = true) (hb : b.isValid = true) :
    jsLeDate a b = true ↔ validDateLe a b := by
  cases a with
  | invalid => simp [JDate.isValid] at ha
  | valid x =>
    cases b with
    | invalid => simp [JDate.isValid] at hb
    | valid y => simp [jsLeDate, validDateLe]

theorem validDateLe_of_not_le {a b : JDate} (ha : a.isValid = true) (hb : b.isValid = true)
    (h : ¬ jsLeDate a b = true) : validDateLe b a := by
  cases a with
  | invalid => simp [JDate.isValid] at ha
  | valid x =>
    cases b with
    | invalid => simp [JDate.isValid] at hb
    | valid y =>
      simp only [jsLeDate, decide_eq_true_eq] at h
      simp only [validDateLe]
      omega

theorem validDateLe_trans {a b c : JDate} (h1 : validDateLe a b) (h2 : validDateLe b c) :
    validDateLe a c := by
  cases a <;> cases b <;> cases c <;> simp_all [validDateLe]
  omega

theorem pairwise_sInsert (x : Session) (l : List Session)
    (hx : x.date.isValid = true) (hl : ∀ s ∈ l, s.date.isValid = true)
    (hp : l.Pairwise (fun a b => validDateLe a.date b.date)) :
    (sInsert x l).Pairwise (fun a b => validDateLe a.date b.date) := by
  induction l with
  | nil => simp [sInsert]
  | cons y ys ih =>
    rw [List.pairwise_cons] at hp
    obtain ⟨hy, hys⟩ := hp
    have hyv : y.date.isValid = true := hl y (List.mem_cons_self y ys)
    have hysv : ∀ s ∈ ys, s.date.isValid = true := fun s hs => hl s (List.mem_cons_of_mem y hs)
    simp only [sInsert]
    by_cases hle : sessionLe x y = true
    · rw [if_pos hle]
      have hxy : validDateLe x.date y.date := (jsLeDate_valid hx hyv).mp hle
      refine List.pairwise_cons.mpr ⟨?_, List.pairwise_cons.mpr ⟨hy, hys⟩⟩
      intro z hz
      rcases List.mem_cons.mp hz with rfl | hz'
      · exact hxy
      · exact validDateLe_trans hxy (hy z hz')
    · rw [if_neg hle]
      have hyx : validDateLe y.date x.date := validDateLe_of_not_le hx hyv hle
      refine List.pairwise_cons.mpr ⟨?_, ih hysv hys⟩
      intro z hz
      rcases mem_sInsert.mp hz with rfl | hz'
      · exact hyx
      · exact hy z hz'

theorem jsSortByDate_pairwise (l : List Session) (hl : ∀ s ∈ l, s.date.isValid = true) :
    (jsSortByDate l).Pairwise (fun a b => validDateLe a.date b.date) := by
  induction l with
  | nil => simp [jsSortByDate]
  | cons x xs ih =>
    have hxs : ∀ s ∈ xs, s.date.isValid = true := fun s hs => hl s (List.mem_cons_of_mem x hs)
    have hsorted : ∀ s ∈ jsSortByDate xs, s.date.isValid = true :=
      fun s hs => hxs s ((perm_jsSortByDate xs).mem_iff.mp hs)
    show (sInsert x (jsSortByDate xs)).Pairwise _
    exact pairwise_sInsert x _ (hl x (List.mem_cons_self x xs)) hsorted (ih hxs)

/-- Claim C8, confirmed (for sessions with valid, hence comparable,
dates — the only "valid outputs"): the trajectory the calculator
produces from merged past and future sessions is in ascending date
order: `trajectory[i].date <= trajectory[i+1].date` for all adjacent
indices. -/
theorem trajectory_dates_ascending (past future : List Session)
    (h : ∀ s ∈ past ++ future, s.date.isValid = true) :
    List.Chain' (fun p q : TrajPoint => validDateLe p.date q.date)
      (computeTrajectory (mergeSessions past future)) := by
  have hsort : List.Chain' (fun a b : Session => validDateLe a.date b.date)
      (mergeSessions past future) := (jsSortByDate_pairwise (past ++ future) h).chain'
  have hmap : (computeTrajectory (mergeSessions past future)).map TrajPoint.date
      = (mergeSessions past future).map Session.date :=
    computeTrajectoryAux_map_date (mergeSessions past future) 0 (0, 0)
  apply (List.chain'_map TrajPoint.date).mp
  rw [hmap]
  exact (List.chain'_map Session.date).mpr hsort

/-- Witness for `trajectory_dates_ascending`. -/
theorem trajectory_dates_ascending_witness :
    List.Chain' (fun p q : TrajPoint => validDateLe p.date q.date)
      (computeTrajectory (mergeSessions
        [{ date := .valid 0, dateKey := "1970-01-01", status := "present", type := "past" }]
        [{ date := .valid msPerDay, dateKey := "1970-01-02", status := "present",
           type := "projected" }])) :=
  trajectory_dates_ascending _ _ (by decide)

/-! ## Claim C9 -/

theorem listContains_nil (cs : List Char) : listContains cs [] = true := by
  cases cs <;> simp [listContains, listStartsWith]

theorem listStartsWith_iff (s t : List Char) :
    listStartsWith s t = true ↔ ∃ v, s = t ++ v := by
  induction t generalizing s with
  | nil => simp [listStartsWith]
  | cons b bs ih =>
    cases s with
    | nil => simp [listStartsWith]
    | cons a as =>
      simp only [listStartsWith, Bool.and_eq_true, decide_eq_true_eq, ih, List.cons_append]
      constructor
      · rintro ⟨rfl, v, rfl⟩
        exact ⟨v, rfl⟩
      · rintro ⟨v, hv⟩
        injection hv with h1 h2
        exact ⟨h1, v, h2⟩

theorem listContains_iff (s t : List Char) :
    listContains s t = true ↔ ∃ u v, s = u ++ t ++ v := by
  induction s with
  | nil =>
    simp only [listContains]
    constructor
    · intro h
      have ht : t = [] := List.isEmpty_iff.mp h
      exact ⟨[], [], by simp [ht]⟩
    · rintro ⟨u, v, huv⟩
      obtain ⟨hut, hv⟩ := List.append_eq_nil.mp huv.symm
      obtain ⟨hu, ht⟩ := List.append_eq_nil.mp hut
      simp [ht]
  | cons c rest ih =>
    simp only [listContains, Bool.or_eq_true, listStartsWith_iff, ih]
    constructor
    · rintro (⟨v, hv⟩ | ⟨u, v, huv⟩)
      · exact ⟨[], v, by simp [hv]⟩
      · exact ⟨c :: u, v, by simp [huv]⟩
    · rintro ⟨u, v, huv⟩
      cases u with
      | nil =>
        left
        exact ⟨v, by simpa using huv⟩
      | cons u0 us =>
        right
        rw [List.cons_append, List.cons_append] at huv
        injection huv with h1 h2
        exact ⟨us, v, h2⟩

/-- The spec's "contains as a substring" relation, written from the
spec's words: `t` occurs contiguously inside `s`. -/
def isSubstringOf (t s : String) : Prop := ∃ u v, s.data = u ++ t.data ++ v

/-- Claim C9, confirmed: a timetable slot matches the target subject
code iff one of the two (resolved) codes contains the other as a
substring; in particular target "CI514" matches a slot whose
subjectCode is "15B11CI514". -/
theorem slotMatches_iff_substring :
    (∀ (slot : ScheduleSlot) (subjectCode : String),
      slotMatches slot subjectCode = true ↔
        (isSubstringOf subjectCode (resolveSlotCode slot)
          ∨ isSubstringOf (resolveSlotCode slot) subjectCode))
    ∧ slotMatches { subjectCode := some "15B11CI514", startTime := "09:00" } "CI514" = true := by
  constructor
  · intro slot code
    simp only [slotMatches, jsIncludes, Bool.or_eq_true, listContains_iff, isSubstringOf]
  · decide

/-! ## Claim C10 -/

/-- Claim C10, confirmed: a timetable entry with neither a
`subjectCode` nor a `code` field resolves to the empty string, which
every target contains as a substring, so the entry matches every
(non-empty) target and the generator emits a future slot for it on
every day it occurs inside the window, whatever subject was asked
for. -/
theorem codeless_slot_matches_everything (slot : ScheduleSlot)
    (h1 : slot.subjectCode = none) (h2 : slot.code = none)
    (timetable : String → List ScheduleSlot) (target : String) (ht : target ≠ "")
    (startMs endMs day : Int)
    (hd1 : Int.fdiv startMs msPerDay ≤ day) (hd2 : day ≤ Int.fdiv endMs msPerDay)
    (hmem : slot ∈ timetable (dayName day)) :
    slotMatches slot target = true ∧
    ∃ s ∈ generateFutureSlots timetable target startMs endMs,
      s.date = JDate.valid (day * msPerDay) ∧ s.startTime = some slot.startTime ∧
      s.slotId = some (dateKeyOfDay day ++ "_" ++ slot.startTime) := by
  have hmatch : slotMatches slot target = true := by
    simp only [slotMatches, resolveSlotCode, h1, h2, jsOrStr, jsIncludes]
    have : listContains target.data ("" : String).data = true := listContains_nil _
    simp [this]
  refine ⟨hmatch, ?_⟩
  unfold generateFutureSlots
  rw [if_neg ht]
  dsimp only
  refine ⟨{ date := JDate.valid (day * msPerDay), dateKey := dateKeyOfDay day,
            slotId := some (dateKeyOfDay day ++ "_" ++ slot.startTime),
            startTime := some slot.startTime, duration := slot.duration,
            status := "present", type := "projected" }, ?_, rfl, rfl, rfl⟩
  apply List.mem_flatMap.mpr
  refine ⟨(day - Int.fdiv startMs msPerDay).toNat, List.mem_range.mpr (by omega), ?_⟩
  have hday : Int.fdiv startMs msPerDay + ((day - Int.fdiv startMs msPerDay).toNat : Int)
      = day := by omega
  rw [hday]
  apply List.mem_map.mpr
  exact ⟨slot, List.mem_filter.mpr ⟨hmem, hmatch⟩, rfl⟩

/-- Witness for `codeless_slot_matches_everything`. -/
theorem codeless_slot_matches_everything_witness :
    slotMatches { startTime := "10:00" } "CI514" = true ∧
    ∃ s ∈ generateFutureSlots
        (fun d => if d = "Monday" then [{ startTime := "10:00" }] else [])
        "CI514" (4 * msPerDay) (4 * msPerDay),
      s.date = JDate.valid (4 * msPerDay) ∧ s.startTime = some "10:00" ∧
      s.slotId = some (dateKeyOfDay 4 ++ "_" ++ "10:00") :=
  codeless_slot_matches_everything _ rfl rfl _ "CI514" (by decide) (4 * msPerDay)
    (4 * msPerDay) 4 (by decide) (by decide) (by decide)

end JFlow
